import Mathlib

/-!
Shallow embedding of the order-countdown / urgency-classification model and
the appointment conflict checker of the Bluez PowerHouse repair-shop
application (Node/Express/Mongo backend: models/Order.js, models/Part.js,
routes/orders.js, routes/schedule.js, models/Schedule.js).

Ints are integer millisecond counts (JS Date arithmetic on whole
milliseconds). Each HTTP request is modelled as a pure function of an
explicit clock reading `now`: every Date.now() call issued while serving a
single request is mapped to that one reading. Mongo collections are lists
of records; a Mongo query is a filter over the list followed by a sort.
-/

namespace BHP

/-- Milliseconds in one hour: 60 * 60 * 1000. -/
def msPerHour : Int := 3600000

/-- Order status enum of models/Order.js. -/
inductive OrderStatus where
  | pending
  | confirmed
  | shipped
  | delivered
  | cancelled
deriving DecidableEq, Repr

/-- HTTP-level rejection kinds surfaced by the routes (all as status 400/404
responses in the source). -/
inductive ApiError where
  | validationError
  | conflictError
  | badRequest
  | notFound
deriving DecidableEq, Repr

/-- The fields of an Order document that the countdown logic touches
(models/Order.js). -/
structure Order where
  orderDate : Int
  customTimeLimit : Int
  countdownEndTime : Option Int
  status : OrderStatus
deriving DecidableEq, Repr

/-- Pre-save hook on a new order (models/Order.js lines 83-95): when
customTimeLimit is truthy, countdownEndTime := Date.now() + limit hours. -/
def preSave (now : Int) (o : Order) : Order :=
  if o.customTimeLimit = 0 then o
  else { o with countdownEndTime := some (now + o.customTimeLimit * msPerHour) }

/-- Express-validator bound on customTimeLimit: isInt with min 1, max 168
(routes/orders.js). -/
def validTimeLimit (l : Int) : Bool :=
  decide (1 ≤ l) && decide (l ≤ 168)

/-- JS expression req.body.customTimeLimit or-else 72 used by POST /api/orders:
absent or falsy (0) yields the 72-hour default. -/
def jsOr72 : Option Int → Int
  | some l => if l = 0 then 72 else l
  | none => 72

/-- Order document built by POST /api/orders (routes/orders.js lines 171-181):
orderDate defaults to Date.now, status to pending, then the pre-save hook
runs. -/
def createOrderDoc (now : Int) (limit : Option Int) : Order :=
  preSave now
    { orderDate := now
      customTimeLimit := jsOr72 limit
      countdownEndTime := none
      status := OrderStatus.pending }

/-- POST /api/orders route: validate customTimeLimit when present (reject with
a ValidationError before anything is written), otherwise append the new
order document to the collection. -/
def postOrderRoute (now : Int) (limit : Option Int) (db : List Order) :
    List Order × Option ApiError :=
  match limit with
  | some l =>
    if validTimeLimit l then (db ++ [createOrderDoc now (some l)], none)
    else (db, some ApiError.validationError)
  | none => (db ++ [createOrderDoc now none], none)

/-- Body of a PUT /api/orders/:id request, restricted to the fields the
countdown core reads. -/
structure OrderUpdateReq where
  status : Option OrderStatus
  customTimeLimit : Option Int
deriving DecidableEq, Repr

/-- Countdown recompute block of PUT /api/orders/:id (routes/orders.js lines
210-214): when a truthy customTimeLimit different from the stored one is
supplied, re-base countdownEndTime from Date.now() at the edit. -/
def applyCustomTimeLimit (now : Int) (req : OrderUpdateReq) (o : Order) : Order :=
  match req.customTimeLimit with
  | some l =>
    if l ≠ 0 ∧ l ≠ o.customTimeLimit then
      { o with customTimeLimit := l
               countdownEndTime := some (now + l * msPerHour) }
    else o
  | none => o

/-- Object.assign(order, req.body) tail of PUT /api/orders/:id, restricted to
the modelled fields. -/
def applyAssign (req : OrderUpdateReq) (o : Order) : Order :=
  let o1 := match req.customTimeLimit with
    | some l => { o with customTimeLimit := l }
    | none => o
  match req.status with
  | some s => { o1 with status := s }
  | none => o1

/-- Document-level effect of PUT /api/orders/:id after validation passed. -/
def updateOrderDoc (now : Int) (req : OrderUpdateReq) (o : Order) : Order :=
  applyAssign req (applyCustomTimeLimit now req o)

/-- Express-validator gate of PUT /api/orders/:id: customTimeLimit, when
present, must be in [1,168]. -/
def orderReqValid (req : OrderUpdateReq) : Bool :=
  match req.customTimeLimit with
  | some l => validTimeLimit l
  | none => true

/-- PUT /api/orders/:id route: validation errors are returned before the order
is even looked up, so a rejected request leaves the collection untouched.
The stored order is addressed by its list index. -/
def putOrderRoute (now : Int) (req : OrderUpdateReq) (db : List Order)
    (i : Nat) : List Order × Option ApiError :=
  if orderReqValid req then
    match db[i]? with
    | none => (db, some ApiError.notFound)
    | some o => (db.set i (updateOrderDoc now req o), none)
  else (db, some ApiError.validationError)

/-- Result of the countdownStatus virtual (models/Order.js lines 98-122):
null when no deadline, otherwise one of overdue / urgent / normal. -/
inductive CountdownClass where
  | noDeadline
  | overdue
  | urgent
  | normal
deriving DecidableEq, Repr

/-- The countdownStatus virtual: timeLeft := countdownEndTime - now; overdue
when timeLeft ≤ 0; else urgent when the floored whole-hour count is below
24, normal otherwise. -/
def countdownStatus (countdownEndTime : Option Int) (now : Int) :
    CountdownClass :=
  match countdownEndTime with
  | none => CountdownClass.noDeadline
  | some endTime =>
    let timeLeft := endTime - now
    if timeLeft ≤ 0 then CountdownClass.overdue
    else
      let hours := timeLeft.toNat / 3600000
      if hours < 24 then CountdownClass.urgent else CountdownClass.normal

/-- Sort key used by the shipping queries: the countdownEndTime field (all
orders matched by those queries carry one). -/
def cdKey (o : Order) : Int :=
  o.countdownEndTime.getD 0

/-- Ascending-by-countdownEndTime comparison used to model Mongo sort
with countdownEndTime ascending. -/
def countdownLE (a b : Order) : Prop :=
  cdKey a ≤ cdKey b

instance : DecidableRel countdownLE := fun a b =>
  inferInstanceAs (Decidable (cdKey a ≤ cdKey b))

instance : IsTotal Order countdownLE :=
  ⟨fun a b => le_total (cdKey a) (cdKey b)⟩

instance : IsTrans Order countdownLE :=
  ⟨fun _ _ _ hab hbc => le_trans hab hbc⟩

/-- Filter of GET /api/orders/shipping/overdue (routes/orders.js lines
262-278): status in [confirmed, shipped] and countdownEndTime strictly
before now (Mongo lt; a document without the field never matches). -/
def overdueFilter (now : Int) (o : Order) : Bool :=
  (o.status == OrderStatus.confirmed || o.status == OrderStatus.shipped) &&
    (match o.countdownEndTime with
     | some t => decide (t < now)
     | none => false)

/-- GET /api/orders/shipping/overdue: filter then sort ascending by
countdownEndTime. -/
def overdueQuery (now : Int) (db : List Order) : List Order :=
  List.insertionSort countdownLE (db.filter (overdueFilter now))

/-- Filter of GET /api/orders/shipping/urgent (routes/orders.js lines
283-301): status in [confirmed, shipped] and now < countdownEndTime <
now + 24h (Mongo gt and lt, both strict). -/
def urgentFilter (now : Int) (o : Order) : Bool :=
  (o.status == OrderStatus.confirmed || o.status == OrderStatus.shipped) &&
    (match o.countdownEndTime with
     | some t => decide (now < t) && decide (t < now + 24 * msPerHour)
     | none => false)

/-- GET /api/orders/shipping/urgent: filter then sort ascending by
countdownEndTime. -/
def urgentQuery (now : Int) (db : List Order) : List Order :=
  List.insertionSort countdownLE (db.filter (urgentFilter now))

/-- Appointment status enum of models/Schedule.js. -/
inductive SchedStatus where
  | scheduled
  | in_progress
  | completed
  | cancelled
  | no_show
deriving DecidableEq, Repr

/-- The fields of a Schedule document that the conflict checker and the
lifecycle transitions touch. requiredParts pairs a part id with the used
quantity. -/
structure Appointment where
  id : Nat
  assignedTechnician : Option Nat
  startTime : Int
  endTime : Int
  status : SchedStatus
  requiredParts : List (Nat × Int)
deriving DecidableEq, Repr

/-- Statuses the conflict query matches: Mongo in [scheduled, in_progress]. -/
def activeStatus (s : SchedStatus) : Bool :=
  s == SchedStatus.scheduled || s == SchedStatus.in_progress

/-- One existing appointment blocks the candidate slot when it belongs to the
technician, is active, and its half-open interval overlaps the candidate:
startTime lt endTime of the candidate and endTime gt its startTime
(routes/schedule.js lines 110-119 and 190-200). -/
def conflictsWith (tech : Nat) (s e : Int) (a : Appointment) : Bool :=
  a.assignedTechnician == some tech && activeStatus a.status &&
    decide (a.startTime < e) && decide (a.endTime > s)

/-- Conflict query: does any stored appointment (other than excludeId) block
the candidate slot for this technician. -/
def hasConflict (db : List Appointment) (tech : Nat) (s e : Int)
    (excludeId : Option Nat) : Bool :=
  db.any fun a =>
    (match excludeId with
     | some i => a.id != i
     | none => true) && conflictsWith tech s e a

/-- POST /api/schedule (routes/schedule.js lines 88-158): the conflict check
runs only when a technician is assigned; on conflict the request is
rejected and nothing is stored, otherwise the appointment is created with
status scheduled. -/
def postScheduleRoute (db : List Appointment) (newId : Nat)
    (tech : Option Nat) (s e : Int) (reqParts : List (Nat × Int)) :
    List Appointment × Option ApiError :=
  match tech with
  | some t =>
    if hasConflict db t s e none then (db, some ApiError.conflictError)
    else (db ++ [⟨newId, some t, s, e, SchedStatus.scheduled, reqParts⟩], none)
  | none => (db ++ [⟨newId, none, s, e, SchedStatus.scheduled, reqParts⟩], none)

/-- Mongoose findById over the modelled collection. -/
def findAppt (db : List Appointment) (id : Nat) : Option Appointment :=
  db.find? fun a => a.id == id

/-- Write-back of a document update addressed by id. -/
def saveAppt (db : List Appointment) (id : Nat)
    (f : Appointment → Appointment) : List Appointment :=
  db.map fun a => if a.id == id then f a else a

/-- PUT /api/schedule/:id (routes/schedule.js lines 163-221): when time or
technician changes while the record is still scheduled, re-run the
conflict query excluding the record itself; on conflict reject without
persisting, otherwise assign the new fields. -/
def putScheduleRoute (db : List Appointment) (id : Nat)
    (newStart newEnd : Option Int) (newTech : Option Nat) :
    List Appointment × Option ApiError :=
  match findAppt db id with
  | none => (db, some ApiError.notFound)
  | some sched =>
    let s := newStart.getD sched.startTime
    let e := newEnd.getD sched.endTime
    let tech := match newTech with
      | some t => some t
      | none => sched.assignedTechnician
    let assign := saveAppt db id fun a =>
      { a with startTime := s, endTime := e, assignedTechnician := tech }
    if (newStart.isSome || newEnd.isSome || newTech.isSome) &&
        sched.status == SchedStatus.scheduled then
      match tech with
      | some t =>
        if hasConflict db t s e (some sched.id) then
          (db, some ApiError.conflictError)
        else (assign, none)
      | none => (assign, none)
    else (assign, none)

/-- POST /api/schedule/:id/start (routes/schedule.js lines 308-327): only a
scheduled appointment may start; otherwise reject with 400 and change
nothing. -/
def startScheduleRoute (db : List Appointment) (id : Nat) :
    List Appointment × Option ApiError :=
  match findAppt db id with
  | none => (db, some ApiError.notFound)
  | some sched =>
    if sched.status == SchedStatus.scheduled then
      (saveAppt db id fun a => { a with status := SchedStatus.in_progress }, none)
    else (db, some ApiError.badRequest)

/-- The inventory fields of a Part document touched on completion. -/
structure Part where
  id : Nat
  quantityInStock : Int
deriving DecidableEq, Repr

/-- Stock decrement for one required part (routes/schedule.js line 362): the
document findById returns (the first with the id) is saved back with
quantityInStock := max 0 (quantityInStock - quantity); a part id absent
from the inventory is left alone (findById misses). -/
def usePart : List Part → Nat → Int → List Part
  | [], _, _ => []
  | p :: rest, pid, q =>
    if p.id == pid then
      { p with quantityInStock := max 0 (p.quantityInStock - q) } :: rest
    else p :: usePart rest pid q

/-- Inventory loop of POST /api/schedule/:id/complete (lines 358-366): each
required part with a truthy quantity is decremented in turn. -/
def useParts (parts : List Part) : List (Nat × Int) → List Part
  | [] => parts
  | (pid, q) :: rest =>
    useParts (if q = 0 then parts else usePart parts pid q) rest

/-- POST /api/schedule/:id/complete (routes/schedule.js lines 332-377): only
an in-progress appointment may complete; on success its status becomes
completed and the required parts are decremented from stock. -/
def completeScheduleRoute (db : List Appointment) (parts : List Part)
    (id : Nat) : (List Appointment × List Part) × Option ApiError :=
  match findAppt db id with
  | none => ((db, parts), some ApiError.notFound)
  | some sched =>
    if sched.status == SchedStatus.in_progress then
      ((saveAppt db id fun a => { a with status := SchedStatus.completed },
        useParts parts sched.requiredParts), none)
    else ((db, parts), some ApiError.badRequest)

/-- Stock of a given part id in the inventory, when present. -/
def stockOf (parts : List Part) (pid : Nat) : Option Int :=
  (parts.find? fun p => p.id == pid).map Part.quantityInStock

/-- C1: for every orderDate (the creation instant) and every customTimeLimit
in [1,168], the deadline computed at order creation equals exactly
orderDate + customTimeLimit hours, milliseconds-exact; with customTimeLimit
absent, the default 72 hours is used; the route then stores exactly that
document. -/
theorem createOrder_deadline_exact (now : Int) (l : Int)
    (db : List Order) (h1 : 1 ≤ l) (h2 : l ≤ 168) :
    (createOrderDoc now (some l)).countdownEndTime =
      some ((createOrderDoc now (some l)).orderDate + l * msPerHour) ∧
    (createOrderDoc now (some l)).orderDate = now ∧
    (createOrderDoc now (some l)).customTimeLimit = l ∧
    (createOrderDoc now none).countdownEndTime =
      some ((createOrderDoc now none).orderDate + 72 * msPerHour) ∧
    (createOrderDoc now none).customTimeLimit = 72 ∧
    postOrderRoute now (some l) db = (db ++ [createOrderDoc now (some l)], none) := by
  have hl0 : ¬ (l = 0) := by omega
  refine ⟨?_, ?_, ?_, ?_, ?_, ?_⟩
  · simp [createOrderDoc, jsOr72, preSave, hl0]
  · simp [createOrderDoc, jsOr72, preSave, hl0]
  · simp [createOrderDoc, jsOr72, preSave, hl0]
  · simp [createOrderDoc, jsOr72, preSave]
  · simp [createOrderDoc, jsOr72, preSave]
  · simp [postOrderRoute, validTimeLimit, h1, h2]

/-- Witness for C1 at now = 0, customTimeLimit = 5 over the empty collection. -/
theorem createOrder_deadline_exact_witness :
    (createOrderDoc 0 (some 5)).countdownEndTime =
      some ((createOrderDoc 0 (some 5)).orderDate + 5 * msPerHour) ∧
    (createOrderDoc 0 (some 5)).orderDate = 0 ∧
    (createOrderDoc 0 (some 5)).customTimeLimit = 5 ∧
    (createOrderDoc 0 none).countdownEndTime =
      some ((createOrderDoc 0 none).orderDate + 72 * msPerHour) ∧
    (createOrderDoc 0 none).customTimeLimit = 72 ∧
    postOrderRoute 0 (some 5) [] = ([] ++ [createOrderDoc 0 (some 5)], none) :=
  createOrder_deadline_exact 0 5 [] (by decide) (by decide)

/-- C4: for every countdownEndTime and now, the countdownStatus virtual
returns exactly one of noDeadline / overdue / urgent / normal; at the
boundary remaining = 24h it returns normal (not urgent), and at
remaining = 0 it returns overdue. -/
theorem countdownStatus_total_and_boundaries :
    (∀ (cet : Option Int) (now : Int),
      countdownStatus cet now = CountdownClass.noDeadline ∨
      countdownStatus cet now = CountdownClass.overdue ∨
      countdownStatus cet now = CountdownClass.urgent ∨
      countdownStatus cet now = CountdownClass.normal) ∧
    (∀ t now : Int, t - now = 24 * msPerHour →
      countdownStatus (some t) now = CountdownClass.normal) ∧
    (∀ t now : Int, t - now = 0 →
      countdownStatus (some t) now = CountdownClass.overdue) := by
  refine ⟨?_, ?_, ?_⟩
  · intro cet now
    cases cet with
    | none => exact Or.inl rfl
    | some t =>
      by_cases h : t - now ≤ 0
      · simp [countdownStatus, h]
      · by_cases h2 : (t - now).toNat / 3600000 < 24
        · simp [countdownStatus, h, h2]
        · simp [countdownStatus, h, h2]
  · intro t now h
    have h1 : ¬ (t - now ≤ 0) := by rw [h]; decide
    have h2 : (t - now).toNat = 86400000 := by rw [h]; decide
    simp [countdownStatus, h1, h2]
  · intro t now h
    have h1 : t - now ≤ 0 := le_of_eq h
    simp [countdownStatus, h1]

/-- Witness for C4 at concrete timestamps: deadline exactly 24h away is
normal, deadline exactly now is overdue. -/
theorem countdownStatus_total_and_boundaries_witness :
    countdownStatus (some (24 * msPerHour)) 0 = CountdownClass.normal ∧
    countdownStatus (some 1000) 1000 = CountdownClass.overdue :=
  ⟨countdownStatus_total_and_boundaries.2.1 (24 * msPerHour) 0 (by norm_num),
   countdownStatus_total_and_boundaries.2.2 1000 1000 (by norm_num)⟩

/-- C5: when customTimeLimit is edited after creation to a value different
from the stored one, the new countdownEndTime is re-based from the edit
instant: editTime + new limit hours, not orderDate + new limit hours. -/
theorem update_rebases_from_edit_time (now : Int) (o : Order) (l : Int)
    (db : List Order) (i : Nat)
    (hv : validTimeLimit l = true) (hne : l ≠ o.customTimeLimit)
    (hi : db[i]? = some o) :
    (updateOrderDoc now ⟨none, some l⟩ o).countdownEndTime =
      some (now + l * msPerHour) ∧
    (updateOrderDoc now ⟨none, some l⟩ o).customTimeLimit = l ∧
    (updateOrderDoc now ⟨none, some l⟩ o).orderDate = o.orderDate ∧
    putOrderRoute now ⟨none, some l⟩ db i =
      (db.set i (updateOrderDoc now ⟨none, some l⟩ o), none) ∧
    (now ≠ o.orderDate →
      (updateOrderDoc now ⟨none, some l⟩ o).countdownEndTime ≠
        some (o.orderDate + l * msPerHour)) := by
  simp only [validTimeLimit, Bool.and_eq_true, decide_eq_true_eq] at hv
  have hl0 : l ≠ 0 := by omega
  have hdoc : updateOrderDoc now ⟨none, some l⟩ o =
      { o with customTimeLimit := l
               countdownEndTime := some (now + l * msPerHour) } := by
    simp [updateOrderDoc, applyCustomTimeLimit, applyAssign, hl0, hne]
  refine ⟨?_, ?_, ?_, ?_, ?_⟩
  · rw [hdoc]
  · rw [hdoc]
  · rw [hdoc]
  · simp [putOrderRoute, orderReqValid, validTimeLimit, hv.1, hv.2, hi]
  · intro hnow heq
    rw [hdoc] at heq
    exact hnow (add_right_cancel (Option.some.inj heq))

/-- Witness for C5: order created at time 0 with a 72 hour limit, edited at
time 1000 to a 5 hour limit. -/
theorem update_rebases_from_edit_time_witness :
    (updateOrderDoc 1000 ⟨none, some 5⟩
        ⟨0, 72, some 259200000, OrderStatus.pending⟩).countdownEndTime =
      some (1000 + 5 * msPerHour) ∧
    (updateOrderDoc 1000 ⟨none, some 5⟩
        ⟨0, 72, some 259200000, OrderStatus.pending⟩).customTimeLimit = 5 ∧
    (updateOrderDoc 1000 ⟨none, some 5⟩
        ⟨0, 72, some 259200000, OrderStatus.pending⟩).orderDate = 0 ∧
    putOrderRoute 1000 ⟨none, some 5⟩
        [⟨0, 72, some 259200000, OrderStatus.pending⟩] 0 =
      ([⟨0, 72, some 259200000, OrderStatus.pending⟩].set 0
        (updateOrderDoc 1000 ⟨none, some 5⟩
          ⟨0, 72, some 259200000, OrderStatus.pending⟩), none) ∧
    ((1000 : Int) ≠ (0 : Int) →
      (updateOrderDoc 1000 ⟨none, some 5⟩
          ⟨0, 72, some 259200000, OrderStatus.pending⟩).countdownEndTime ≠
        some (0 + 5 * msPerHour)) :=
  update_rebases_from_edit_time 1000 ⟨0, 72, some 259200000, OrderStatus.pending⟩
    5 [⟨0, 72, some 259200000, OrderStatus.pending⟩] 0
    (by decide) (by decide) (by rfl)

/-- C9: an order create or update carrying a customTimeLimit outside [1,168]
is rejected with a validation error and the stored collection is left
exactly as it was: no deadline is computed, no field is changed. -/
theorem invalid_time_limit_rejected (now : Int) (l : Int)
    (db : List Order) (req : OrderUpdateReq) (i : Nat)
    (hl : ¬ (1 ≤ l ∧ l ≤ 168)) (hreq : req.customTimeLimit = some l) :
    postOrderRoute now (some l) db = (db, some ApiError.validationError) ∧
    putOrderRoute now req db i = (db, some ApiError.validationError) := by
  have hv : validTimeLimit l = false := by
    simp only [validTimeLimit, Bool.and_eq_false_iff, decide_eq_false_iff_not]
    omega
  constructor
  · simp [postOrderRoute, hv]
  · simp [putOrderRoute, orderReqValid, hreq, hv]

/-- Witness for C9 at customTimeLimit = 200 against a one-order collection. -/
theorem invalid_time_limit_rejected_witness :
    postOrderRoute 0 (some 200) [⟨0, 72, some 259200000, OrderStatus.pending⟩] =
      ([⟨0, 72, some 259200000, OrderStatus.pending⟩], some ApiError.validationError) ∧
    putOrderRoute 0 ⟨none, some 200⟩ [⟨0, 72, some 259200000, OrderStatus.pending⟩] 0 =
      ([⟨0, 72, some 259200000, OrderStatus.pending⟩], some ApiError.validationError) :=
  invalid_time_limit_rejected 0 200 [⟨0, 72, some 259200000, OrderStatus.pending⟩]
    ⟨none, some 200⟩ 0 (by decide) (by rfl)

/-- C3 counterexample: an order with status confirmed whose countdownEndTime
equals now exactly is NOT returned by the overdue query (the source filter
is strict: countdownEndTime lt now), contradicting the claim that
countdownEndTime le now is included. -/
theorem overdue_at_now_excluded :
    overdueQuery 1000 [Order.mk 0 72 (some 1000) OrderStatus.confirmed] = [] ∧
    (Order.mk 0 72 (some 1000) OrderStatus.confirmed).status =
      OrderStatus.confirmed ∧
    (Order.mk 0 72 (some 1000) OrderStatus.confirmed).countdownEndTime =
      some 1000 := by
  refine ⟨?_, rfl, rfl⟩
  simp [overdueQuery, overdueFilter, List.filter, List.insertionSort]

/-- C3 as amended: the overdue query returns exactly the orders with status in
[confirmed, shipped] and countdownEndTime strictly before now (an order
whose countdownEndTime equals now is excluded), sorted ascending by
countdownEndTime; delivered and cancelled orders are excluded regardless
of timestamp. -/
theorem overdueQuery_characterization (now : Int) (db : List Order) :
    (∀ o, o ∈ overdueQuery now db ↔
      o ∈ db ∧
      (o.status = OrderStatus.confirmed ∨ o.status = OrderStatus.shipped) ∧
      ∃ t, o.countdownEndTime = some t ∧ t < now) ∧
    (overdueQuery now db).Sorted countdownLE := by
  constructor
  · intro o
    rw [overdueQuery, (List.perm_insertionSort countdownLE _).mem_iff,
      List.mem_filter]
    cases h : o.countdownEndTime with
    | none => simp [overdueFilter, h]
    | some t => simp [overdueFilter, h, and_assoc]
  · exact List.sorted_insertionSort countdownLE _

/-- C6: the urgent query returns exactly the orders with status in
[confirmed, shipped] and 0 lt countdownEndTime - now lt 24h, sorted
ascending by countdownEndTime. -/
theorem urgentQuery_characterization (now : Int) (db : List Order) :
    (∀ o, o ∈ urgentQuery now db ↔
      o ∈ db ∧
      (o.status = OrderStatus.confirmed ∨ o.status = OrderStatus.shipped) ∧
      ∃ t, o.countdownEndTime = some t ∧
        0 < t - now ∧ t - now < 24 * msPerHour) ∧
    (urgentQuery now db).Sorted countdownLE := by
  constructor
  · intro o
    rw [urgentQuery, (List.perm_insertionSort countdownLE _).mem_iff,
      List.mem_filter]
    cases h : o.countdownEndTime with
    | none => simp [urgentFilter, h]
    | some t =>
      simp only [urgentFilter, h, msPerHour, Bool.and_eq_true, Bool.or_eq_true,
        beq_iff_eq, decide_eq_true_eq, Option.some.injEq, and_assoc]
      constructor
      · rintro ⟨hm, hs, hlt, hgt⟩
        exact ⟨hm, hs, t, rfl, by omega, by omega⟩
      · rintro ⟨hm, hs, t', ht', h1, h2⟩
        subst ht'
        exact ⟨hm, hs, by omega, by omega⟩
  · exact List.sorted_insertionSort countdownLE _

/-- C2: for a pair of half-open intervals of the same technician, the conflict
query answers true exactly when s1 lt e2 and s2 lt e1 (so adjacent
intervals do not conflict), and a conflicting create or update is rejected
and leaves the collection untouched. -/
theorem conflict_iff_overlap :
    (∀ (tech : Nat) (s1 e1 s2 e2 : Int) (aid : Nat) (rp : List (Nat × Int)),
      hasConflict [⟨aid, some tech, s1, e1, SchedStatus.scheduled, rp⟩]
          tech s2 e2 none = true ↔
        s1 < e2 ∧ s2 < e1) ∧
    (∀ db newId tech s e rp, hasConflict db tech s e none = true →
      postScheduleRoute db newId (some tech) s e rp =
        (db, some ApiError.conflictError)) ∧
    (∀ db id s e t sched, findAppt db id = some sched →
      sched.status = SchedStatus.scheduled →
      hasConflict db t s e (some sched.id) = true →
      putScheduleRoute db id (some s) (some e) (some t) =
        (db, some ApiError.conflictError)) := by
  refine ⟨?_, ?_, ?_⟩
  · intro tech s1 e1 s2 e2 aid rp
    simp [hasConflict, conflictsWith, activeStatus]
  · intro db newId tech s e rp h
    simp [postScheduleRoute, h]
  · intro db id s e t sched hfind hstat hconf
    simp [putScheduleRoute, hfind, hstat, hconf]

/-- Witness for C2: technician 7 holds [0,100) as scheduled; the candidate
[50,150) conflicts and its creation is rejected without persisting. -/
theorem conflict_iff_overlap_witness :
    (hasConflict [⟨1, some 7, 0, 100, SchedStatus.scheduled, []⟩]
        7 50 150 none = true ↔ (0 : Int) < 150 ∧ (50 : Int) < 100) ∧
    postScheduleRoute [⟨1, some 7, 0, 100, SchedStatus.scheduled, []⟩]
        2 (some 7) 50 150 [] =
      ([⟨1, some 7, 0, 100, SchedStatus.scheduled, []⟩],
        some ApiError.conflictError) :=
  ⟨conflict_iff_overlap.1 7 0 100 50 150 1 [],
   conflict_iff_overlap.2.1 [⟨1, some 7, 0, 100, SchedStatus.scheduled, []⟩]
     2 7 50 150 [] (by decide)⟩

/-- C7: an appointment without a technician is always accepted with no
conflict check, and existing appointments whose status is outside
[scheduled, in_progress] (cancelled in particular) never block a new
appointment for the same technician at the same time. -/
theorem unassigned_or_inactive_accepted :
    (∀ db newId s e rp, postScheduleRoute db newId none s e rp =
      (db ++ [⟨newId, none, s, e, SchedStatus.scheduled, rp⟩], none)) ∧
    (∀ db tech s e excl,
      (∀ a ∈ db, a.assignedTechnician = some tech → activeStatus a.status = false) →
      hasConflict db tech s e excl = false) ∧
    (∀ db newId tech s e rp,
      (∀ a ∈ db, a.assignedTechnician = some tech → activeStatus a.status = false) →
      postScheduleRoute db newId (some tech) s e rp =
        (db ++ [⟨newId, some tech, s, e, SchedStatus.scheduled, rp⟩], none)) := by
  have key : ∀ (db : List Appointment) (tech : Nat) (s e : Int)
      (excl : Option Nat),
      (∀ a ∈ db, a.assignedTechnician = some tech → activeStatus a.status = false) →
      hasConflict db tech s e excl = false := by
    intro db tech s e excl h
    rw [hasConflict]
    simp only [List.any_eq_false]
    intro a ha
    by_cases htech : a.assignedTechnician = some tech
    · have hact := h a ha htech
      simp [conflictsWith, hact]
    · simp [conflictsWith, htech]
  refine ⟨?_, key, ?_⟩
  · intro db newId s e rp
    simp [postScheduleRoute]
  · intro db newId tech s e rp h
    simp [postScheduleRoute, key db tech s e none h]

/-- Witness for C7: a cancelled appointment for technician 7 at [600,660)
does not block creating a scheduled appointment for technician 7 at the
same window. -/
theorem unassigned_or_inactive_accepted_witness :
    hasConflict [⟨1, some 7, 600, 660, SchedStatus.cancelled, []⟩]
        7 600 660 none = false ∧
    postScheduleRoute [⟨1, some 7, 600, 660, SchedStatus.cancelled, []⟩]
        2 (some 7) 600 660 [] =
      ([⟨1, some 7, 600, 660, SchedStatus.cancelled, []⟩] ++
        [⟨2, some 7, 600, 660, SchedStatus.scheduled, []⟩], none) :=
  ⟨unassigned_or_inactive_accepted.2.1
      [⟨1, some 7, 600, 660, SchedStatus.cancelled, []⟩] 7 600 660 none
      (by decide),
   unassigned_or_inactive_accepted.2.2
      [⟨1, some 7, 600, 660, SchedStatus.cancelled, []⟩] 2 7 600 660 []
      (by decide)⟩

/-- Helper: an id-preserving document update addressed at id rewrites what
findAppt sees at that id. -/
theorem findAppt_saveAppt (db : List Appointment) (id : Nat)
    (f : Appointment → Appointment) (hf : ∀ a, (f a).id = a.id)
    (sched : Appointment) (h : findAppt db id = some sched) :
    findAppt (saveAppt db id f) id = some (f sched) := by
  induction db with
  | nil => simp [findAppt] at h
  | cons a rest ih =>
    by_cases ha : a.id = id
    · rw [findAppt, List.find?_cons_of_pos rest (by simp [ha])] at h
      cases h
      rw [saveAppt, List.map_cons, if_pos (by simp [ha]), findAppt,
        List.find?_cons_of_pos _ (by simp [hf, ha])]
    · rw [findAppt, List.find?_cons_of_neg rest (by simp [ha])] at h
      rw [saveAppt, List.map_cons, if_neg (by simp [ha]), findAppt,
        List.find?_cons_of_neg _ (by simp [ha])]
      exact ih h

/-- C8: starting an appointment whose status is not scheduled is rejected with
the collection unchanged, and completing one whose status is not
in_progress likewise; when accepted, start sets the status to in_progress
and complete sets it to completed. -/
theorem lifecycle_guards (db : List Appointment) (parts : List Part)
    (id : Nat) (sched : Appointment) (h : findAppt db id = some sched) :
    (sched.status ≠ SchedStatus.scheduled →
      startScheduleRoute db id = (db, some ApiError.badRequest)) ∧
    (sched.status = SchedStatus.scheduled →
      (startScheduleRoute db id).2 = none ∧
      findAppt (startScheduleRoute db id).1 id =
        some { sched with status := SchedStatus.in_progress }) ∧
    (sched.status ≠ SchedStatus.in_progress →
      completeScheduleRoute db parts id = ((db, parts), some ApiError.badRequest)) ∧
    (sched.status = SchedStatus.in_progress →
      (completeScheduleRoute db parts id).2 = none ∧
      findAppt (completeScheduleRoute db parts id).1.1 id =
        some { sched with status := SchedStatus.completed }) := by
  refine ⟨?_, ?_, ?_, ?_⟩
  · intro hs
    simp [startScheduleRoute, h, hs]
  · intro hs
    refine ⟨by simp [startScheduleRoute, h, hs], ?_⟩
    have := findAppt_saveAppt db id
      (fun a => { a with status := SchedStatus.in_progress })
      (fun a => rfl) sched h
    simpa [startScheduleRoute, h, hs] using this
  · intro hs
    simp [completeScheduleRoute, h, hs]
  · intro hs
    refine ⟨by simp [completeScheduleRoute, h, hs], ?_⟩
    have := findAppt_saveAppt db id
      (fun a => { a with status := SchedStatus.completed })
      (fun a => rfl) sched h
    simpa [completeScheduleRoute, h, hs] using this

/-- Witness for C8: starting a completed appointment is rejected; starting a
scheduled one and completing an in-progress one succeed and set the
expected statuses. -/
theorem lifecycle_guards_witness :
    (SchedStatus.completed ≠ SchedStatus.scheduled →
      startScheduleRoute [⟨3, none, 0, 10, SchedStatus.completed, []⟩] 3 =
        ([⟨3, none, 0, 10, SchedStatus.completed, []⟩],
          some ApiError.badRequest)) ∧
    (SchedStatus.completed = SchedStatus.scheduled →
      (startScheduleRoute [⟨3, none, 0, 10, SchedStatus.completed, []⟩] 3).2 =
          none ∧
      findAppt (startScheduleRoute
          [⟨3, none, 0, 10, SchedStatus.completed, []⟩] 3).1 3 =
        some { Appointment.mk 3 none 0 10 SchedStatus.completed [] with
                 status := SchedStatus.in_progress }) ∧
    (SchedStatus.completed ≠ SchedStatus.in_progress →
      completeScheduleRoute [⟨3, none, 0, 10, SchedStatus.completed, []⟩] [] 3 =
        (([⟨3, none, 0, 10, SchedStatus.completed, []⟩], []),
          some ApiError.badRequest)) ∧
    (SchedStatus.completed = SchedStatus.in_progress →
      (completeScheduleRoute
          [⟨3, none, 0, 10, SchedStatus.completed, []⟩] [] 3).2 = none ∧
      findAppt (completeScheduleRoute
          [⟨3, none, 0, 10, SchedStatus.completed, []⟩] [] 3).1.1 3 =
        some { Appointment.mk 3 none 0 10 SchedStatus.completed [] with
                 status := SchedStatus.completed }) :=
  lifecycle_guards [⟨3, none, 0, 10, SchedStatus.completed, []⟩] [] 3
    ⟨3, none, 0, 10, SchedStatus.completed, []⟩ (by rfl)

/-- Helper: decrementing a part id rewrites exactly that id's stock to
max 0 (stock - q). -/
theorem stockOf_usePart_self (parts : List Part) (pid : Nat) (q : Int) :
    stockOf (usePart parts pid q) pid =
      (stockOf parts pid).map fun s => max 0 (s - q) := by
  induction parts with
  | nil => simp [stockOf, usePart]
  | cons p rest ih =>
    by_cases hp : p.id = pid
    · rw [usePart, if_pos (by simp [hp])]
      simp [stockOf, hp]
    · rw [usePart, if_neg (by simp [hp])]
      simpa [stockOf, hp] using ih

/-- Helper: decrementing one part id leaves every other id's stock alone. -/
theorem stockOf_usePart_other (parts : List Part) (pid pid' : Nat) (q : Int)
    (hne : pid' ≠ pid) :
    stockOf (usePart parts pid' q) pid = stockOf parts pid := by
  induction parts with
  | nil => simp [stockOf, usePart]
  | cons p rest ih =>
    by_cases hp1 : p.id = pid'
    · have hp2 : ¬ p.id = pid := by
        rw [hp1]
        exact hne
      rw [usePart, if_pos (by simp [hp1])]
      simp [stockOf, hp2]
    · rw [usePart, if_neg (by simp [hp1])]
      by_cases hp2 : p.id = pid
      · simp [stockOf, hp2]
      · simpa [stockOf, hp2] using ih

/-- Helper: a part id mentioned by no required-part entry keeps its stock
through the whole inventory loop. -/
theorem stockOf_useParts_notIn (rp : List (Nat × Int)) (parts : List Part)
    (pid : Nat) (h : ∀ pq ∈ rp, pq.1 ≠ pid) :
    stockOf (useParts parts rp) pid = stockOf parts pid := by
  induction rp generalizing parts with
  | nil => rfl
  | cons hd tl ih =>
    obtain ⟨p1, q1⟩ := hd
    have h1 : p1 ≠ pid := h (p1, q1) (List.mem_cons_self _ _)
    rw [useParts, ih _ (fun pq hpq => h pq (List.mem_cons_of_mem _ hpq))]
    by_cases hq : q1 = 0
    · simp [hq]
    · simp [hq, stockOf_usePart_other parts pid p1 q1 h1]

/-- Helper: when a part id is required by exactly one entry, with quantity q,
the inventory loop rewrites its stock to max 0 (stock - q). -/
theorem stockOf_useParts_single (rp : List (Nat × Int)) (parts : List Part)
    (pid : Nat) (q : Int) (hq : q ≠ 0)
    (hf : rp.filter (fun pq => pq.1 == pid) = [(pid, q)]) :
    stockOf (useParts parts rp) pid =
      (stockOf parts pid).map fun s => max 0 (s - q) := by
  induction rp generalizing parts with
  | nil => simp at hf
  | cons hd tl ih =>
    obtain ⟨p1, q1⟩ := hd
    by_cases hp : p1 = pid
    · subst hp
      rw [List.filter_cons_of_pos (by simp)] at hf
      simp only [List.cons.injEq, Prod.mk.injEq] at hf
      obtain ⟨⟨-, hq1⟩, htl⟩ := hf
      have htl2 : ∀ pq ∈ tl, pq.1 ≠ p1 := by
        intro pq hpq
        have := List.filter_eq_nil_iff.mp htl pq hpq
        simpa using this
      have hq10 : ¬ (q1 = 0) := by rw [hq1]; exact hq
      rw [useParts, if_neg hq10,
        stockOf_useParts_notIn tl (usePart parts p1 q1) p1 htl2,
        stockOf_usePart_self, hq1]
    · rw [List.filter_cons_of_neg (by simp [hp])] at hf
      rw [useParts]
      rw [ih _ hf]
      by_cases hq1 : q1 = 0
      · simp [hq1]
      · simp [hq1, stockOf_usePart_other parts pid p1 q1 hp]

/-- Helper: the single-part decrement never produces a negative stock. -/
theorem usePart_nonneg (parts : List Part) (pid : Nat) (q : Int)
    (h : ∀ p ∈ parts, 0 ≤ p.quantityInStock) :
    ∀ p ∈ usePart parts pid q, 0 ≤ p.quantityInStock := by
  induction parts with
  | nil => simp [usePart]
  | cons p rest ih =>
    by_cases hp : p.id = pid
    · rw [usePart, if_pos (by simp [hp])]
      intro x hx
      rcases List.mem_cons.mp hx with hx | hx
      · subst hx
        exact le_max_left 0 _
      · exact h x (List.mem_cons_of_mem _ hx)
    · rw [usePart, if_neg (by simp [hp])]
      intro x hx
      rcases List.mem_cons.mp hx with hx | hx
      · subst hx
        exact h x (List.mem_cons_self _ _)
      · exact ih (fun y hy => h y (List.mem_cons_of_mem _ hy)) x hx

/-- Helper: the whole inventory loop never produces a negative stock. -/
theorem useParts_nonneg (rp : List (Nat × Int)) (parts : List Part)
    (h : ∀ p ∈ parts, 0 ≤ p.quantityInStock) :
    ∀ p ∈ useParts parts rp, 0 ≤ p.quantityInStock := by
  induction rp generalizing parts with
  | nil => exact h
  | cons hd tl ih =>
    obtain ⟨p1, q1⟩ := hd
    rw [useParts]
    apply ih
    by_cases hq : q1 = 0
    · simpa [hq] using h
    · simpa [hq] using usePart_nonneg parts p1 q1 h

/-- C10: completing an in-progress appointment sets each required part's stock
to max 0 (previous stock - required quantity): the decrement is silently
clamped at zero rather than rejected, and no stock is driven negative. -/
theorem complete_clamps_stock (db : List Appointment) (parts : List Part)
    (id : Nat) (sched : Appointment) (pid : Nat) (q s : Int)
    (h : findAppt db id = some sched)
    (hst : sched.status = SchedStatus.in_progress)
    (hfp : sched.requiredParts.filter (fun pq => pq.1 == pid) = [(pid, q)])
    (hq : q ≠ 0)
    (hs : stockOf parts pid = some s) :
    (completeScheduleRoute db parts id).2 = none ∧
    stockOf (completeScheduleRoute db parts id).1.2 pid =
      some (max 0 (s - q)) ∧
    ((∀ p ∈ parts, 0 ≤ p.quantityInStock) →
      ∀ p ∈ (completeScheduleRoute db parts id).1.2, 0 ≤ p.quantityInStock) := by
  have hroute : completeScheduleRoute db parts id =
      ((saveAppt db id fun a => { a with status := SchedStatus.completed },
        useParts parts sched.requiredParts), none) := by
    simp [completeScheduleRoute, h, hst]
  refine ⟨by rw [hroute], ?_, ?_⟩
  · rw [hroute]
    simpa [hs] using stockOf_useParts_single sched.requiredParts parts pid q hq hfp
  · intro hpos
    rw [hroute]
    exact useParts_nonneg sched.requiredParts parts hpos

/-- Witness for C10: appointment 1 in progress requires 9 units of part 5 but
only 4 are in stock; completion clamps the stock to 0. -/
theorem complete_clamps_stock_witness :
    (completeScheduleRoute [⟨1, some 7, 0, 10, SchedStatus.in_progress, [(5, 9)]⟩]
        [⟨5, 4⟩] 1).2 = none ∧
    stockOf (completeScheduleRoute
        [⟨1, some 7, 0, 10, SchedStatus.in_progress, [(5, 9)]⟩]
        [⟨5, 4⟩] 1).1.2 5 = some (max 0 ((4 : Int) - 9)) ∧
    ((∀ p ∈ [Part.mk 5 4], 0 ≤ p.quantityInStock) →
      ∀ p ∈ (completeScheduleRoute
          [⟨1, some 7, 0, 10, SchedStatus.in_progress, [(5, 9)]⟩]
          [⟨5, 4⟩] 1).1.2, 0 ≤ p.quantityInStock) :=
  complete_clamps_stock
    [⟨1, some 7, 0, 10, SchedStatus.in_progress, [(5, 9)]⟩] [⟨5, 4⟩] 1
    ⟨1, some 7, 0, 10, SchedStatus.in_progress, [(5, 9)]⟩ 5 9 4
    (by rfl) (by rfl) (by rfl) (by decide) (by rfl)

end BHP
